import Mathlib

/-!
# mmap_tensor.cpp : building an MLX array from a memory-mapped file region

A shallow embedding of `Source/Cmlx/mmap_tensor.cpp` (`_tensor_from_data` and
`mlx_mmap_tensor`) together with the small part of the operating system and of
the array runtime that the two functions call.

* `size_t` is a natural number below `2 ^ 64`; every `size_t` operation of the
  source is followed by an explicit `% SIZE_MOD`.
* `int` is an integer; `static_cast<size_t>` of an `int` is reduction modulo
  `2 ^ 64` (sign extension).
* `const int* shape` is the sequence of ints stored at `shape`, `shape + 1`, ...
* An address is a natural number; `static_cast<const char*>(ptr) + offset` is the
  address `ptr + offset`.
* The operating system is a state (`Kernel`: open descriptors and live
  mappings) stepped by `sys_open`, `sys_mmap`, `sys_close`, `sys_munmap`; the
  outcomes the operating system is free to choose (which descriptor, which
  address, success or failure) come from an `Env`.
* Every external call appends itself to the log of the state, so the log of a run is
  the sequence of calls in program order.
-/

namespace MmapTensor

/-! ## Machine integers -/

/-- Number of values of a 64-bit `size_t`. -/
def SIZE_MOD : Nat := 2 ^ 64

/-- Conversion `static_cast<size_t>(x)` of an `int`: the value modulo `2 ^ 64`. -/
def toSizeT (x : Int) : Nat := (x % (SIZE_MOD : Int)).toNat

/-- Multiplication of two `size_t` values (wraps modulo `2 ^ 64`). -/
def mulSizeT (a b : Nat) : Nat := (a * b) % SIZE_MOD

/-- Addition of two `size_t` values (wraps modulo `2 ^ 64`). -/
def addSizeT (a b : Nat) : Nat := (a + b) % SIZE_MOD

/-! ## External collaborators: dtypes, devices -/

/-- Tag of the C enum `mlx_dtype`. -/
abbrev mlx_dtype := Nat

/-- Device descriptor `mlx_device`; its content is never inspected. -/
abbrev mlx_device := Nat

/-- A byte of a file or of memory. -/
abbrev Byte := Nat

/-! ## Size computation (mmap_tensor.cpp lines 31-34) -/

/-- The loop `for (int i = 0; i < dim; ++i) count *= static_cast<size_t>(shape[i]);`
with `remaining` iterations left (`dim - i` of them), index `i` and accumulator `count`. -/
def countLoop (shape : Nat → Int) : (remaining : Nat) → (i : Nat) → (count : Nat) → Nat
  | 0, _, count => count
  | remaining + 1, i, count =>
      countLoop shape remaining (i + 1) (mulSizeT count (toSizeT (shape i)))

/-- Value of `count` after the loop: `size_t count = 1;` followed by `dim` iterations
(none when `dim <= 0`). -/
def elementCount (shape : Nat → Int) (dim : Int) : Nat :=
  countLoop shape dim.toNat 0 1

/-- Value of `bytes`: `size_t bytes = elementSize * count;` where
`elementSize = mlx_dtype_size(dtype)`; the size table `dtypeSize` is external. -/
def byteCount (dtypeSize : mlx_dtype → Nat) (shape : Nat → Int) (dim : Int)
    (dtype : mlx_dtype) : Nat :=
  let elementSize := dtypeSize dtype
  let count := elementCount shape dim
  mulSizeT elementSize count

/-- Exact product over the integers of `shape[0..n)` (1 when `n = 0`); this follows the
wording of the specification, not the code. -/
def shapeProduct (shape : Nat → Int) : Nat → Int
  | 0 => 1
  | n + 1 => shapeProduct shape n * shape n

/-- Specification wording of the byte span: `totalBytes = elementSize * Π shape[i]` for
`i` in `[0, dim)`, each dimension read as an unsigned count, without any wraparound. -/
def specTotalBytes (dtypeSize : mlx_dtype → Nat) (shape : Nat → Int) (dim : Int)
    (dtype : mlx_dtype) : Nat :=
  dtypeSize dtype * (shapeProduct shape dim.toNat).toNat

/-- The ints stored at `shape[0..n)`, as a list. -/
def shapeList (shape : Nat → Int) (n : Nat) : List Int := (List.range n).map shape

/-- Pointer to the first element of an `int` array holding `l` (reads past the array
are not made by any well-formed call; they yield 0 here). -/
def shapeOf (l : List Int) : Nat → Int := fun i => l.getD i 0

/-! ## Operating system model -/

/-- Access mode passed to `::open`. -/
inductive OpenFlag
  | O_RDONLY
  | O_WRONLY
  | O_RDWR
deriving DecidableEq, Repr

/-- Protection passed to `::mmap`. -/
inductive Prot
  | PROT_NONE
  | PROT_READ
  | PROT_WRITE
  | PROT_READ_WRITE
deriving DecidableEq, Repr

/-- Sharing mode passed to `::mmap`. -/
inductive MapFlag
  | MAP_SHARED
  | MAP_PRIVATE
deriving DecidableEq, Repr

/-- An external call with its arguments (and its result, for `::open` and `::mmap`). -/
inductive Call
  | sysOpen (path : String) (flags : OpenFlag) (ret : Int)
  | sysMmap (len : Nat) (prot : Prot) (flags : MapFlag) (fd : Int) (off : Nat)
      (ret : Option Nat)
  | sysClose (fd : Int)
  | sysMunmap (addr : Nat) (len : Nat)
  | arrayNew
  | arrayNewData (data : Nat) (shape : List Int) (dim : Int) (dtype : mlx_dtype)
deriving DecidableEq, Repr

/-- A live mapping: `len` bytes at address `addr`, backed by `content`, the bytes of the
mapped file from the file offset of the mapping on. -/
structure Mapping where
  addr : Nat
  len : Nat
  content : List Byte
deriving DecidableEq, Repr

/-- State of the process: the open descriptors (each with the bytes of the file it
refers to), the live mappings (most recent first), the log of the external calls made so
far (oldest first), and the page size of the system. -/
structure Kernel where
  fds : List (Int × List Byte)
  maps : List Mapping
  log : List Call
  pageSize : Nat
deriving DecidableEq, Repr

/-- Choices left to the operating system: the value `::open` returns for a path (a
descriptor, or a negative number on failure), the bytes of the file at a path, and the
address `::mmap` returns for its arguments (`none` is `MAP_FAILED`). -/
structure Env where
  openRet : String → OpenFlag → Int
  fileBytes : String → List Byte
  mmapRet : Nat → Prot → MapFlag → Int → Nat → Option Nat

/-- Call `::open(path, flags)`: a non-negative result is a new open descriptor. -/
def sys_open (env : Env) (k : Kernel) (path : String) (flags : OpenFlag) : Int × Kernel :=
  let fd := env.openRet path flags
  let log := k.log ++ [Call.sysOpen path flags fd]
  if fd < 0 then (fd, { k with log := log })
  else (fd, { k with fds := (fd, env.fileBytes path) :: k.fds, log := log })

/-- Call `::mmap(nullptr, len, prot, flags, fd, off)`: fails on a descriptor that is not
open or when the operating system refuses; otherwise a new mapping of `len` bytes
backed by the file behind `fd` from offset `off`. -/
def sys_mmap (env : Env) (k : Kernel) (len : Nat) (prot : Prot) (flags : MapFlag)
    (fd : Int) (off : Nat) : Option Nat × Kernel :=
  let failed : Option Nat × Kernel :=
    (none, { k with log := k.log ++ [Call.sysMmap len prot flags fd off none] })
  match k.fds.lookup fd with
  | none => failed
  | some bytes =>
    match env.mmapRet len prot flags fd off with
    | none => failed
    | some a =>
      (some a, { k with maps := ⟨a, len, bytes.drop off⟩ :: k.maps,
                        log := k.log ++ [Call.sysMmap len prot flags fd off (some a)] })

/-- Call `::close(fd)`: the descriptor is no longer open. -/
def sys_close (k : Kernel) (fd : Int) : Kernel :=
  { k with fds := k.fds.eraseP (fun e => e.1 == fd), log := k.log ++ [Call.sysClose fd] }

/-- Call `::munmap(addr, len)`: the mapping created with that address and length is
released. -/
def sys_munmap (k : Kernel) (addr len : Nat) : Kernel :=
  { k with maps := k.maps.eraseP (fun m => m.addr == addr && m.len == len),
           log := k.log ++ [Call.sysMunmap addr len] }

/-- End of the last page of a file of `n` bytes, for pages of `pageSize` bytes. -/
def lastPageEnd (pageSize n : Nat) : Nat := ((n + pageSize - 1) / pageSize) * pageSize

/-- Read at address `a`. Inside the mapping that covers `a` a position before the end
of the backing file holds the byte of the file, and a position past the end of the file
but inside its last page holds the zero fill of that page. `none` is a read that faults:
no mapping covers `a`, or `a` lies in a page wholly past the end of the file
(`SIGBUS`). -/
def peek (k : Kernel) (a : Nat) : Option Byte :=
  match k.maps.find? (fun m => decide (m.addr ≤ a ∧ a < m.addr + m.len)) with
  | none => none
  | some m =>
    let i := a - m.addr
    if i < m.content.length then m.content[i]?
    else if i < lastPageEnd k.pageSize m.content.length then some 0
    else none

/-! ## Array runtime -/

/-- Array value of the external runtime: the empty array, or an array owning a buffer.
Each entry of the buffer is the byte that was copied; `none` marks a position whose read
faults, where the copy of the real runtime is killed and the call never returns. -/
inductive mlx_array
  | empty
  | data (buffer : List (Option Byte)) (shape : List Int) (dtype : mlx_dtype)
deriving DecidableEq, Repr

/-- Buffer owned by an array (empty for the empty array). -/
def mlx_array.buffer : mlx_array → List (Option Byte)
  | .empty => []
  | .data buffer _ _ => buffer

/-- Modelled from the spec: `mlx_array_new()` of the external array runtime, which
returns the designated valid-but-empty array. -/
def mlx_array_new (k : Kernel) : mlx_array × Kernel :=
  (mlx_array.empty, { k with log := k.log ++ [Call.arrayNew] })

/-- Modelled from the spec: `mlx_array_new_data(data, shape, dim, dtype)` of the external
array runtime; it copies `totalBytes = elementSize * Π shape[i]` bytes starting at
`data` into a buffer owned by the new array. -/
def mlx_array_new_data (dtypeSize : mlx_dtype → Nat) (k : Kernel) (data : Nat)
    (shape : Nat → Int) (dim : Int) (dtype : mlx_dtype) : mlx_array × Kernel :=
  (mlx_array.data
    ((List.range (specTotalBytes dtypeSize shape dim dtype)).map (fun i => peek k (data + i)))
    (shapeList shape dim.toNat) dtype,
   { k with log := k.log ++ [Call.arrayNewData data (shapeList shape dim.toNat) dim dtype] })

/-! ## The source functions -/

/-- Source function `_tensor_from_data(ptr, offset, bytes, shape, dim, dtype)`:
`base = ptr + offset; return mlx_array_new_data(base, shape, dim, dtype);`
(the parameter `bytes` is not used by the source). -/
def _tensor_from_data (dtypeSize : mlx_dtype → Nat) (k : Kernel) (ptr : Nat) (offset : Nat)
    (_bytes : Nat) (shape : Nat → Int) (dim : Int) (dtype : mlx_dtype) :
    mlx_array × Kernel :=
  let base := ptr + offset
  mlx_array_new_data dtypeSize k base shape dim dtype

/-- Source function `mlx_mmap_tensor(path, offset, shape, dim, dtype, device)`, run from
the process state `k` under the operating system choices `env`; it gives the returned
array and the process state at return. -/
def mlx_mmap_tensor (dtypeSize : mlx_dtype → Nat) (env : Env) (k : Kernel) (path : String)
    (offset : Nat) (shape : Nat → Int) (dim : Int) (dtype : mlx_dtype)
    (_device : mlx_device) : mlx_array × Kernel :=
  let bytes := byteCount dtypeSize shape dim dtype
  let (fd, k1) := sys_open env k path OpenFlag.O_RDONLY
  if fd < 0 then
    mlx_array_new k1
  else
    let (ptr, k2) := sys_mmap env k1 (addSizeT bytes offset) Prot.PROT_READ
      MapFlag.MAP_SHARED fd 0
    let k3 := sys_close k2 fd
    match ptr with
    | none => mlx_array_new k3
    | some p =>
      let (arr, k4) := _tensor_from_data dtypeSize k3 p offset bytes shape dim dtype
      let k5 := sys_munmap k4 p (addSizeT bytes offset)
      (arr, k5)

/-- The external calls made between the states `before` and `after`. -/
def callsSince (before after : Kernel) : List Call :=
  after.log.drop before.log.length

/-! ## Resource accounting over a call log -/

/-- State of the mapped region of one call (specification section 4.4). -/
inductive MapState
  | Unmapped
  | Mapped (addr : Nat) (len : Nat)
deriving DecidableEq, Repr

/-- One step of the region state machine `Unmapped → Mapped → Unmapped`; `none` when the
call is not allowed in the state (a release without a region, a release with another
address or length, a second region). -/
def MapState.step : MapState → Call → Option MapState
  | .Unmapped, .sysMmap len _ _ _ _ (some a) => some (.Mapped a len)
  | .Mapped _ _, .sysMmap _ _ _ _ _ (some _) => none
  | .Unmapped, .sysMunmap _ _ => none
  | .Mapped a l, .sysMunmap a2 l2 => if a = a2 ∧ l = l2 then some .Unmapped else none
  | s, _ => some s

/-- Run the region state machine over a call log. -/
def MapState.run : MapState → List Call → Option MapState
  | s, [] => some s
  | s, c :: cs =>
    match s.step c with
    | none => none
    | some s2 => MapState.run s2 cs

/-- Is the call a successful `::mmap`? -/
def Call.isMmapOk : Call → Bool
  | .sysMmap _ _ _ _ _ (some _) => true
  | _ => false

/-- Is the call a `::mmap` (successful or not)? -/
def Call.isMmap : Call → Bool
  | .sysMmap _ _ _ _ _ _ => true
  | _ => false

/-- Is the call a `::munmap`? -/
def Call.isMunmap : Call → Bool
  | .sysMunmap _ _ => true
  | _ => false

/-- Is the call a successful `::open`? -/
def Call.isOpenOk : Call → Bool
  | .sysOpen _ _ ret => decide (0 ≤ ret)
  | _ => false

/-- Is the call a `::close`? -/
def Call.isClose : Call → Bool
  | .sysClose _ => true
  | _ => false

/-- Is the call the data constructor `mlx_array_new_data`? -/
def Call.isArrayNewData : Call → Bool
  | .arrayNewData _ _ _ _ => true
  | _ => false

/-- Is the call `mlx_array_new`? -/
def Call.isArrayNew : Call → Bool
  | .arrayNew => true
  | _ => false

/-! ## Concrete inputs -/

/-- The 16-byte file holding the little-endian float32 values 1.0, 2.0, 3.0, 4.0. -/
def file16 : List Byte :=
  [0x00, 0x00, 0x80, 0x3F, 0x00, 0x00, 0x00, 0x40,
   0x00, 0x00, 0x40, 0x40, 0x00, 0x00, 0x80, 0x40]

/-- Size table in which every dtype (in particular float32) takes 4 bytes. -/
def size4 : mlx_dtype → Nat := fun _ => 4

/-- An operating system in which every path is the readable file `file16`, `::open`
returns descriptor 3 and `::mmap` of a non-zero length returns address 4096 (as POSIX
has it, whether or not the length goes beyond the end of the file). -/
def env16 : Env where
  openRet := fun _ _ => 3
  fileBytes := fun _ => file16
  mmapRet := fun len _ _ _ _ => if len = 0 then none else some 4096

/-- An operating system in which no path can be opened. -/
def envNoFile : Env where
  openRet := fun _ _ => -1
  fileBytes := fun _ => []
  mmapRet := fun _ _ _ _ _ => some 4096

/-- An operating system in which `file16` opens as descriptor 3 and every `::mmap`
fails. -/
def envNoMap : Env where
  openRet := fun _ _ => 3
  fileBytes := fun _ => file16
  mmapRet := fun _ _ _ _ _ => none

/-- A process with no open descriptor, no mapping and an empty log, on a system with
pages of 4096 bytes. -/
def kernel0 : Kernel := ⟨[], [], [], 4096⟩

/-- A process holding the descriptors 0, 1 and 2, no mapping and an empty log, on a
system with pages of 4096 bytes. -/
def kernelStd : Kernel := ⟨[(0, []), (1, []), (2, [])], [], [], 4096⟩

/-- A shape of three positive 32-bit dimensions whose exact product is `2 ^ 62 + 1`. -/
def shapeBig : Nat → Int := shapeOf [2147418113, 429509837, 5]

/-! ## Size arithmetic -/

theorem toSizeT_cast (x : Int) : ((toSizeT x : Nat) : Int) = x % (SIZE_MOD : Int) := by
  unfold toSizeT
  apply Int.toNat_of_nonneg
  apply Int.emod_nonneg
  simp [SIZE_MOD]

theorem mulSizeT_lt (a b : Nat) : mulSizeT a b < SIZE_MOD := by
  unfold mulSizeT
  apply Nat.mod_lt
  simp [SIZE_MOD]

theorem mulSizeT_cast (a b : Nat) :
    ((mulSizeT a b : Nat) : Int) = ((a : Int) * (b : Int)) % (SIZE_MOD : Int) := by
  unfold mulSizeT
  push_cast
  rfl

/-- Loop invariant: modulo `2 ^ 64` the accumulator is the product of the dimensions
consumed so far. -/
theorem countLoop_emod (shape : Nat → Int) (n : Nat) :
    ∀ (i c : Nat), ((c : Int) % (SIZE_MOD : Int) = shapeProduct shape i % (SIZE_MOD : Int)) →
      ((countLoop shape n i c : Nat) : Int) % (SIZE_MOD : Int)
        = shapeProduct shape (i + n) % (SIZE_MOD : Int) := by
  induction n with
  | zero => intro i c h; simpa [countLoop] using h
  | succ n ih =>
    intro i c h
    have hstep : ((mulSizeT c (toSizeT (shape i)) : Nat) : Int) % (SIZE_MOD : Int)
        = shapeProduct shape (i + 1) % (SIZE_MOD : Int) := by
      rw [mulSizeT_cast, toSizeT_cast, Int.emod_emod_of_dvd _ (dvd_refl _)]
      show _ = (shapeProduct shape i * shape i) % (SIZE_MOD : Int)
      rw [Int.mul_emod, Int.emod_emod_of_dvd _ (dvd_refl _), h, ← Int.mul_emod]
    have := ih (i + 1) _ hstep
    simpa [countLoop, Nat.add_assoc, Nat.add_comm 1 n] using this

theorem countLoop_lt (shape : Nat → Int) (n : Nat) :
    ∀ (i c : Nat), c < SIZE_MOD → countLoop shape n i c < SIZE_MOD := by
  induction n with
  | zero => intro i c h; simpa [countLoop] using h
  | succ n ih => intro i c _; exact ih _ _ (mulSizeT_lt _ _)

/-- The element count of the source is the exact product reduced modulo `2 ^ 64`. -/
theorem elementCount_cast (shape : Nat → Int) (dim : Int) :
    ((elementCount shape dim : Nat) : Int)
      = shapeProduct shape dim.toNat % (SIZE_MOD : Int) := by
  have h := countLoop_emod shape dim.toNat 0 1 (by simp [shapeProduct])
  have hlt := countLoop_lt shape dim.toNat 0 1 (by simp [SIZE_MOD])
  have hlt2 : ((countLoop shape dim.toNat 0 1 : Nat) : Int) < (SIZE_MOD : Int) := by
    exact_mod_cast hlt
  rw [Int.emod_eq_of_lt (by positivity) hlt2] at h
  simpa [elementCount] using h

/-- The byte count of the source is the exact product reduced modulo `2 ^ 64`. -/
theorem byteCount_cast (dtypeSize : mlx_dtype → Nat) (shape : Nat → Int) (dim : Int)
    (dtype : mlx_dtype) :
    ((byteCount dtypeSize shape dim dtype : Nat) : Int)
      = ((dtypeSize dtype : Int) * shapeProduct shape dim.toNat) % (SIZE_MOD : Int) := by
  unfold byteCount
  simp only []
  rw [mulSizeT_cast, elementCount_cast, Int.mul_emod, Int.emod_emod_of_dvd _ (dvd_refl _),
    ← Int.mul_emod]

theorem shapeProduct_pos (shape : Nat → Int) (n : Nat)
    (hpos : ∀ i, i < n → 0 < shape i) : 0 < shapeProduct shape n := by
  induction n with
  | zero => simp [shapeProduct]
  | succ n ih =>
    have h1 := ih (fun i hi => hpos i (Nat.lt_succ_of_lt hi))
    have h2 := hpos n (Nat.lt_succ_self n)
    simp only [shapeProduct]
    positivity

theorem shapeProduct_zero (shape : Nat → Int) (n : Nat)
    (hz : ∃ i, i < n ∧ shape i = 0) : shapeProduct shape n = 0 := by
  induction n with
  | zero => obtain ⟨i, hi, _⟩ := hz; omega
  | succ n ih =>
    obtain ⟨i, hi, h0⟩ := hz
    simp only [shapeProduct]
    rcases Nat.lt_succ_iff_lt_or_eq.mp hi with h | h
    · rw [ih ⟨i, h, h0⟩]; simp
    · subst h; rw [h0]; simp

/-- Without wraparound and with positive dimensions the byte count of the source is the
byte span of the specification. -/
theorem byteCount_eq_spec (dtypeSize : mlx_dtype → Nat) (shape : Nat → Int) (dim : Int)
    (dtype : mlx_dtype) (hpos : ∀ i, i < dim.toNat → 0 < shape i)
    (hfit : specTotalBytes dtypeSize shape dim dtype < SIZE_MOD) :
    byteCount dtypeSize shape dim dtype = specTotalBytes dtypeSize shape dim dtype := by
  have hP := shapeProduct_pos shape dim.toNat hpos
  have hc := byteCount_cast dtypeSize shape dim dtype
  have hs : ((specTotalBytes dtypeSize shape dim dtype : Nat) : Int)
      = (dtypeSize dtype : Int) * shapeProduct shape dim.toNat := by
    unfold specTotalBytes
    push_cast
    rw [Int.toNat_of_nonneg hP.le]
  rw [← hs] at hc
  have hlt : ((specTotalBytes dtypeSize shape dim dtype : Nat) : Int) < (SIZE_MOD : Int) := by
    exact_mod_cast hfit
  rw [Int.emod_eq_of_lt (by positivity) hlt] at hc
  exact_mod_cast hc

/-! ## The three runs of `mlx_mmap_tensor` -/

theorem run_open_fail (dtypeSize : mlx_dtype → Nat) (env : Env) (k : Kernel) (path : String)
    (offset : Nat) (shape : Nat → Int) (dim : Int) (dtype : mlx_dtype) (device : mlx_device)
    (hfd : env.openRet path OpenFlag.O_RDONLY < 0) :
    mlx_mmap_tensor dtypeSize env k path offset shape dim dtype device
      = (mlx_array.empty,
         { k with log := k.log ++
            [Call.sysOpen path OpenFlag.O_RDONLY (env.openRet path OpenFlag.O_RDONLY),
             Call.arrayNew] }) := by
  simp [mlx_mmap_tensor, sys_open, hfd, mlx_array_new]

theorem run_mmap_fail (dtypeSize : mlx_dtype → Nat) (env : Env) (k : Kernel) (path : String)
    (offset : Nat) (shape : Nat → Int) (dim : Int) (dtype : mlx_dtype) (device : mlx_device)
    (hfd : 0 ≤ env.openRet path OpenFlag.O_RDONLY)
    (hmap : env.mmapRet (addSizeT (byteCount dtypeSize shape dim dtype) offset) Prot.PROT_READ
      MapFlag.MAP_SHARED (env.openRet path OpenFlag.O_RDONLY) 0 = none) :
    mlx_mmap_tensor dtypeSize env k path offset shape dim dtype device
      = (mlx_array.empty,
         { k with log := k.log ++
            [Call.sysOpen path OpenFlag.O_RDONLY (env.openRet path OpenFlag.O_RDONLY),
             Call.sysMmap (addSizeT (byteCount dtypeSize shape dim dtype) offset)
               Prot.PROT_READ MapFlag.MAP_SHARED (env.openRet path OpenFlag.O_RDONLY) 0 none,
             Call.sysClose (env.openRet path OpenFlag.O_RDONLY),
             Call.arrayNew] }) := by
  have hfd2 : ¬ env.openRet path OpenFlag.O_RDONLY < 0 := not_lt.mpr hfd
  simp [mlx_mmap_tensor, sys_open, hfd2, sys_mmap, hmap, sys_close, mlx_array_new,
    List.lookup]

theorem run_ok (dtypeSize : mlx_dtype → Nat) (env : Env) (k : Kernel) (path : String)
    (offset : Nat) (shape : Nat → Int) (dim : Int) (dtype : mlx_dtype) (device : mlx_device)
    (p : Nat) (hfd : 0 ≤ env.openRet path OpenFlag.O_RDONLY)
    (hmap : env.mmapRet (addSizeT (byteCount dtypeSize shape dim dtype) offset) Prot.PROT_READ
      MapFlag.MAP_SHARED (env.openRet path OpenFlag.O_RDONLY) 0 = some p) :
    mlx_mmap_tensor dtypeSize env k path offset shape dim dtype device
      = (mlx_array.data
          ((List.range (specTotalBytes dtypeSize shape dim dtype)).map
            (fun i => peek
              ⟨k.fds,
               ⟨p, addSizeT (byteCount dtypeSize shape dim dtype) offset,
                 env.fileBytes path⟩ :: k.maps, [], k.pageSize⟩
              (p + offset + i)))
          (shapeList shape dim.toNat) dtype,
         { k with log := k.log ++
            [Call.sysOpen path OpenFlag.O_RDONLY (env.openRet path OpenFlag.O_RDONLY),
             Call.sysMmap (addSizeT (byteCount dtypeSize shape dim dtype) offset)
               Prot.PROT_READ MapFlag.MAP_SHARED (env.openRet path OpenFlag.O_RDONLY) 0
               (some p),
             Call.sysClose (env.openRet path OpenFlag.O_RDONLY),
             Call.arrayNewData (p + offset) (shapeList shape dim.toNat) dim dtype,
             Call.sysMunmap p (addSizeT (byteCount dtypeSize shape dim dtype) offset)] }) := by
  have hfd2 : ¬ env.openRet path OpenFlag.O_RDONLY < 0 := not_lt.mpr hfd
  simp [mlx_mmap_tensor, sys_open, hfd2, sys_mmap, hmap, sys_close, sys_munmap,
    _tensor_from_data, mlx_array_new_data, List.lookup, peek]

/-- A read inside the most recent mapping gives the byte of its backing file. -/
theorem peek_head (fds : List (Int × List Byte)) (m : Mapping) (maps : List Mapping)
    (log : List Call) (ps : Nat) (a : Nat) (h1 : m.addr ≤ a) (h2 : a < m.addr + m.len)
    (h3 : a - m.addr < m.content.length) :
    peek ⟨fds, m :: maps, log, ps⟩ a = m.content[a - m.addr]? := by
  simp [peek, List.find?, h1, h2, h3]

/-- Copying `n` bytes at `p + offset` out of a mapping of at least `offset + n` bytes at `p`
gives the bytes `[offset, offset + n)` of the backing file. -/
theorem copy_region (fds : List (Int × List Byte)) (maps : List Mapping) (file : List Byte)
    (ps p len offset n : Nat) (hlen : offset + n ≤ len) (hfile : offset + n ≤ file.length) :
    (List.range n).map
        (fun i => peek ⟨fds, ⟨p, len, file⟩ :: maps, [], ps⟩ (p + offset + i))
      = ((file.drop offset).take n).map some := by
  apply List.ext_getElem?
  intro i
  by_cases hi : i < n
  · have hpk : peek ⟨fds, ⟨p, len, file⟩ :: maps, [], ps⟩ (p + offset + i)
        = file[offset + i]? := by
      rw [peek_head _ _ _ _ _ _ (by simp; omega) (by simp; omega) (by simp; omega)]
      congr 1
      simp
      omega
    have hget : file[offset + i]? = some (file[offset + i]) :=
      List.getElem?_eq_getElem (by omega)
    simp [List.getElem?_map, List.getElem?_range, hi, hpk, List.getElem?_take,
      List.getElem?_drop, hget]
  · have h1 : ((List.range n).map
        (fun i => peek ⟨fds, ⟨p, len, file⟩ :: maps, [], ps⟩ (p + offset + i)))[i]?
          = none := by
      apply List.getElem?_eq_none
      simp
      omega
    have h2 : (((file.drop offset).take n).map some)[i]? = none := by
      apply List.getElem?_eq_none
      simp
      omega
    rw [h1, h2]

theorem callsSince_append (k : Kernel) (fds : List (Int × List Byte)) (maps : List Mapping)
    (l : List Call) (ps : Nat) : callsSince k ⟨fds, maps, k.log ++ l, ps⟩ = l := by
  simp [callsSince]

/-- Every run is one of three: `::open` failed, `::mmap` failed, or both succeeded; in
each the array, the resources and the calls made are known. -/
theorem run_cases (dtypeSize : mlx_dtype → Nat) (env : Env) (k : Kernel) (path : String)
    (offset : Nat) (shape : Nat → Int) (dim : Int) (dtype : mlx_dtype) (device : mlx_device) :
    (env.openRet path OpenFlag.O_RDONLY < 0
        ∧ mlx_mmap_tensor dtypeSize env k path offset shape dim dtype device
          = (mlx_array.empty,
             ⟨k.fds, k.maps, k.log ++
              [Call.sysOpen path OpenFlag.O_RDONLY (env.openRet path OpenFlag.O_RDONLY),
               Call.arrayNew], k.pageSize⟩))
    ∨ (0 ≤ env.openRet path OpenFlag.O_RDONLY
        ∧ env.mmapRet (addSizeT (byteCount dtypeSize shape dim dtype) offset) Prot.PROT_READ
            MapFlag.MAP_SHARED (env.openRet path OpenFlag.O_RDONLY) 0 = none
        ∧ mlx_mmap_tensor dtypeSize env k path offset shape dim dtype device
          = (mlx_array.empty,
             ⟨k.fds, k.maps, k.log ++
              [Call.sysOpen path OpenFlag.O_RDONLY (env.openRet path OpenFlag.O_RDONLY),
               Call.sysMmap (addSizeT (byteCount dtypeSize shape dim dtype) offset)
                 Prot.PROT_READ MapFlag.MAP_SHARED (env.openRet path OpenFlag.O_RDONLY) 0
                 none,
               Call.sysClose (env.openRet path OpenFlag.O_RDONLY),
               Call.arrayNew], k.pageSize⟩))
    ∨ (∃ p, 0 ≤ env.openRet path OpenFlag.O_RDONLY
        ∧ env.mmapRet (addSizeT (byteCount dtypeSize shape dim dtype) offset) Prot.PROT_READ
            MapFlag.MAP_SHARED (env.openRet path OpenFlag.O_RDONLY) 0 = some p
        ∧ mlx_mmap_tensor dtypeSize env k path offset shape dim dtype device
          = (mlx_array.data
              ((List.range (specTotalBytes dtypeSize shape dim dtype)).map
                (fun i => peek
                  ⟨k.fds,
                   ⟨p, addSizeT (byteCount dtypeSize shape dim dtype) offset,
                     env.fileBytes path⟩ :: k.maps, [], k.pageSize⟩
                  (p + offset + i)))
              (shapeList shape dim.toNat) dtype,
             ⟨k.fds, k.maps, k.log ++
              [Call.sysOpen path OpenFlag.O_RDONLY (env.openRet path OpenFlag.O_RDONLY),
               Call.sysMmap (addSizeT (byteCount dtypeSize shape dim dtype) offset)
                 Prot.PROT_READ MapFlag.MAP_SHARED (env.openRet path OpenFlag.O_RDONLY) 0
                 (some p),
               Call.sysClose (env.openRet path OpenFlag.O_RDONLY),
               Call.arrayNewData (p + offset) (shapeList shape dim.toNat) dim dtype,
               Call.sysMunmap p
                 (addSizeT (byteCount dtypeSize shape dim dtype) offset)], k.pageSize⟩)) := by
  by_cases hfd : env.openRet path OpenFlag.O_RDONLY < 0
  · exact Or.inl ⟨hfd, run_open_fail dtypeSize env k path offset shape dim dtype device hfd⟩
  · have hfd2 : 0 ≤ env.openRet path OpenFlag.O_RDONLY := not_lt.mp hfd
    cases hmap : env.mmapRet (addSizeT (byteCount dtypeSize shape dim dtype) offset)
        Prot.PROT_READ MapFlag.MAP_SHARED (env.openRet path OpenFlag.O_RDONLY) 0 with
    | none =>
      exact Or.inr (Or.inl ⟨hfd2, rfl,
        run_mmap_fail dtypeSize env k path offset shape dim dtype device hfd2 hmap⟩)
    | some p =>
      exact Or.inr (Or.inr ⟨p, hfd2, rfl,
        run_ok dtypeSize env k path offset shape dim dtype device p hfd2 hmap⟩)

/-! ## Claims -/

/-- C10: for every `dim`, every shape of ints (zero and negative entries included) and
every element size, the byte count computed by `mlx_mmap_tensor` is
`(elementSize * P) mod 2 ^ 64`, `P` the product over the integers of `shape[0..dim)`
(`P = 1` when `dim <= 0`, so a negative `dim` is a scalar); a shape with a zero entry
gives 0, and shape `[-1, -1]` gives the same byte count as `[1, 1]`. -/
theorem C10_byteCount_wraps (dtypeSize : mlx_dtype → Nat) (shape : Nat → Int) (dim : Int)
    (dtype : mlx_dtype) :
    ((byteCount dtypeSize shape dim dtype : Nat) : Int)
        = ((dtypeSize dtype : Int) * shapeProduct shape dim.toNat) % ((2 : Int) ^ 64)
      ∧ (dim ≤ 0 → shapeProduct shape dim.toNat = 1
          ∧ byteCount dtypeSize shape dim dtype = dtypeSize dtype % 2 ^ 64)
      ∧ ((∃ i, i < dim.toNat ∧ shape i = 0) → byteCount dtypeSize shape dim dtype = 0)
      ∧ byteCount dtypeSize (shapeOf [-1, -1]) 2 dtype
          = byteCount dtypeSize (shapeOf [1, 1]) 2 dtype := by
  have hM : ((2 : Int) ^ 64) = (SIZE_MOD : Int) := by simp [SIZE_MOD]
  refine ⟨?_, ?_, ?_, ?_⟩
  · rw [hM]; exact byteCount_cast dtypeSize shape dim dtype
  · intro hd
    have h0 : dim.toNat = 0 := Int.toNat_eq_zero.mpr hd
    refine ⟨by rw [h0]; rfl, ?_⟩
    simp [byteCount, elementCount, h0, countLoop, mulSizeT, SIZE_MOD]
  · intro hz
    have h := byteCount_cast dtypeSize shape dim dtype
    rw [shapeProduct_zero shape dim.toNat hz] at h
    simp at h
    exact h
  · have h1 := byteCount_cast dtypeSize (shapeOf [-1, -1]) 2 dtype
    have h2 := byteCount_cast dtypeSize (shapeOf [1, 1]) 2 dtype
    have e1 : shapeProduct (shapeOf [-1, -1]) (2 : Int).toNat = 1 := by decide
    have e2 : shapeProduct (shapeOf [1, 1]) (2 : Int).toNat = 1 := by decide
    rw [e1] at h1
    rw [e2] at h2
    rw [← h2] at h1
    exact_mod_cast h1

/-- C10 at concrete inputs: element size 4, shapes `[-1, -1]` and `[1, 1]` both give 4
bytes, shape `[3, 0, 5]` gives 0 bytes, and `dim = -2` gives the element size 4. -/
theorem C10_byteCount_wraps_witness :
    byteCount size4 (shapeOf [-1, -1]) 2 10 = 4 ∧ byteCount size4 (shapeOf [1, 1]) 2 10 = 4
      ∧ byteCount size4 (shapeOf [3, 0, 5]) 3 10 = 0
      ∧ byteCount size4 (shapeOf [7]) (-2) 10 = 4 := by
  have h := C10_byteCount_wraps size4 (shapeOf [3, 0, 5]) 3 10
  have h2 := C10_byteCount_wraps size4 (shapeOf [7]) (-2) 10
  refine ⟨by decide, by decide, h.2.2.1 ⟨1, by decide, by decide⟩, ?_⟩
  rw [(h2.2.1 (by decide)).2]
  decide

/-- C2: for every dtype and every shape of positive dimensions whose exact product times
the byte size of the dtype fits in `size_t`, the byte count computed by `mlx_mmap_tensor`
is `mlx_dtype_size(dtype) * Π shape[0..dim)` exactly; for `dim = 0` it is the element
size, and for a non-zero element size dividing it by the element size gives back the
element count `Π shape[0..dim)`. -/
theorem C2_byteCount_exact (dtypeSize : mlx_dtype → Nat) (shape : Nat → Int) (dim : Int)
    (dtype : mlx_dtype) (hpos : ∀ i, i < dim.toNat → 0 < shape i)
    (hfit : dtypeSize dtype * (shapeProduct shape dim.toNat).toNat < 2 ^ 64) :
    byteCount dtypeSize shape dim dtype
        = dtypeSize dtype * (shapeProduct shape dim.toNat).toNat
      ∧ byteCount dtypeSize shape dim dtype = specTotalBytes dtypeSize shape dim dtype
      ∧ (dim = 0 → byteCount dtypeSize shape dim dtype = dtypeSize dtype)
      ∧ (dtypeSize dtype ≠ 0 →
          byteCount dtypeSize shape dim dtype / dtypeSize dtype
            = (shapeProduct shape dim.toNat).toNat) := by
  have hfit2 : specTotalBytes dtypeSize shape dim dtype < SIZE_MOD := hfit
  have h := byteCount_eq_spec dtypeSize shape dim dtype hpos hfit2
  have hs : specTotalBytes dtypeSize shape dim dtype
      = dtypeSize dtype * (shapeProduct shape dim.toNat).toNat := rfl
  refine ⟨by rw [h, hs], h, ?_, ?_⟩
  · intro hd
    subst hd
    rw [h, hs]
    simp [shapeProduct]
  · intro hne
    rw [h, hs]
    exact Nat.mul_div_cancel_left _ (Nat.pos_of_ne_zero hne)

/-- C2 at a concrete input: float32 (4 bytes), shape `[2, 3]`: 24 bytes, 6 elements. -/
theorem C2_byteCount_exact_witness :
    byteCount size4 (shapeOf [2, 3]) 2 10 = 4 * 6
      ∧ byteCount size4 (shapeOf [2, 3]) 2 10 / 4 = 6 := by
  have h := C2_byteCount_exact size4 (shapeOf [2, 3]) 2 10
    (by intro i hi
        have hi2 : i < 2 := hi
        interval_cases i <;> decide)
    (by decide)
  exact ⟨h.1, h.2.2.2 (by decide)⟩

/-- C1: when `::open` and `::mmap` succeed, the dimensions are positive and
`offset + elementSize * Π shape` neither overflows `size_t` nor exceeds the file size,
`mlx_mmap_tensor` returns the array the data constructor builds from exactly the file
bytes `[offset, offset + totalBytes)`: its buffer has `totalBytes` entries and entry `j`
is byte `offset + j` of the file. -/
theorem C1_buffer_is_file_region (dtypeSize : mlx_dtype → Nat) (env : Env) (k : Kernel)
    (path : String) (offset : Nat) (shape : Nat → Int) (dim : Int) (dtype : mlx_dtype)
    (device : mlx_device) (p : Nat)
    (hfd : 0 ≤ env.openRet path OpenFlag.O_RDONLY)
    (hmap : env.mmapRet (addSizeT (byteCount dtypeSize shape dim dtype) offset) Prot.PROT_READ
      MapFlag.MAP_SHARED (env.openRet path OpenFlag.O_RDONLY) 0 = some p)
    (hpos : ∀ i, i < dim.toNat → 0 < shape i)
    (hfit : offset + dtypeSize dtype * (shapeProduct shape dim.toNat).toNat < 2 ^ 64)
    (hsize : offset + dtypeSize dtype * (shapeProduct shape dim.toNat).toNat
      ≤ (env.fileBytes path).length) :
    (mlx_mmap_tensor dtypeSize env k path offset shape dim dtype device).1
        = mlx_array.data
            ((((env.fileBytes path).drop offset).take
              (dtypeSize dtype * (shapeProduct shape dim.toNat).toNat)).map some)
            (shapeList shape dim.toNat) dtype
      ∧ (mlx_mmap_tensor dtypeSize env k path offset shape dim dtype device).1.buffer.length
          = dtypeSize dtype * (shapeProduct shape dim.toNat).toNat
      ∧ (∀ j, j < dtypeSize dtype * (shapeProduct shape dim.toNat).toNat →
          ∃ b, (env.fileBytes path)[offset + j]? = some b
            ∧ (mlx_mmap_tensor dtypeSize env k path offset shape dim dtype
                device).1.buffer[j]? = some (some b))
      ∧ ∃ kr, (mlx_mmap_tensor dtypeSize env k path offset shape dim dtype device).1
            = (mlx_array_new_data dtypeSize kr (p + offset) shape dim dtype).1
          ∧ ∀ j, j < dtypeSize dtype * (shapeProduct shape dim.toNat).toNat →
              ∃ b, (env.fileBytes path)[offset + j]? = some b
                ∧ peek kr (p + offset + j) = some b := by
  have hs : specTotalBytes dtypeSize shape dim dtype
      = dtypeSize dtype * (shapeProduct shape dim.toNat).toNat := rfl
  have hfit2 : specTotalBytes dtypeSize shape dim dtype < SIZE_MOD := by
    rw [hs]; simp only [SIZE_MOD]; omega
  have hb := byteCount_eq_spec dtypeSize shape dim dtype hpos hfit2
  have hlen : addSizeT (byteCount dtypeSize shape dim dtype) offset
      = dtypeSize dtype * (shapeProduct shape dim.toNat).toNat + offset := by
    rw [hb, hs]
    unfold addSizeT
    apply Nat.mod_eq_of_lt
    simp only [SIZE_MOD]
    omega
  have hrun := run_ok dtypeSize env k path offset shape dim dtype device p hfd hmap
  have hrun2 := hrun
  rw [hlen, hs, copy_region _ _ _ _ _ _ _ _ (by omega) hsize] at hrun
  refine ⟨by rw [hrun], ?_, ?_, ?_⟩
  · rw [hrun]
    simp [mlx_array.buffer]
    omega
  · intro j hj
    have hj2 : offset + j < (env.fileBytes path).length := by omega
    refine ⟨(env.fileBytes path)[offset + j], List.getElem?_eq_getElem hj2, ?_⟩
    rw [hrun]
    simp [mlx_array.buffer, List.getElem?_map, List.getElem?_take, List.getElem?_drop, hj,
      List.getElem?_eq_getElem hj2]
  · refine ⟨⟨k.fds, ⟨p, addSizeT (byteCount dtypeSize shape dim dtype) offset,
      env.fileBytes path⟩ :: k.maps, [], k.pageSize⟩, ?_, ?_⟩
    · rw [hrun2]
      simp [mlx_array_new_data, Nat.add_assoc]
    · intro j hj
      have hj2 : offset + j < (env.fileBytes path).length := by omega
      refine ⟨(env.fileBytes path)[offset + j], List.getElem?_eq_getElem hj2, ?_⟩
      rw [peek_head _ _ _ _ _ _ (by simp; omega) (by simp [hlen]; omega) (by simp; omega)]
      simp only [Nat.add_assoc, Nat.add_sub_cancel_left]
      exact List.getElem?_eq_getElem hj2

/-- C1 at the concrete scenario: the 16-byte file of float32 `[1, 2, 3, 4]`, offset 8,
shape `[2]` yields the bytes of `[3.0, 4.0]`. -/
theorem C1_buffer_is_file_region_witness :
    (mlx_mmap_tensor size4 env16 kernel0 "weights.bin" 8 (shapeOf [2]) 1 10 0).1
      = mlx_array.data
          [some 0x00, some 0x00, some 0x40, some 0x40,
           some 0x00, some 0x00, some 0x80, some 0x40] [2] 10 :=
  (C1_buffer_is_file_region size4 env16 kernel0 "weights.bin" 8 (shapeOf [2]) 1 10 0 4096
    (by decide) (by decide)
    (by intro i hi
        have hi2 : i < 1 := hi
        interval_cases i; decide)
    (by decide) (by decide)).1

/-- C8: the device is inert: for any two device descriptors and the same path, offset,
shape, dim, dtype, process state and operating system, `mlx_mmap_tensor` returns the
same array and leaves the same state, in particular the same log of external calls with
the same arguments. -/
theorem C8_device_inert (dtypeSize : mlx_dtype → Nat) (env : Env) (k : Kernel) (path : String)
    (offset : Nat) (shape : Nat → Int) (dim : Int) (dtype : mlx_dtype)
    (d1 d2 : mlx_device) :
    mlx_mmap_tensor dtypeSize env k path offset shape dim dtype d1
        = mlx_mmap_tensor dtypeSize env k path offset shape dim dtype d2
      ∧ callsSince k (mlx_mmap_tensor dtypeSize env k path offset shape dim dtype d1).2
        = callsSince k (mlx_mmap_tensor dtypeSize env k path offset shape dim dtype d2).2 :=
  ⟨rfl, rfl⟩

/-- C7: when `::open` fails the result is the empty array and the only calls are the
`::open` and `mlx_array_new` (no mapping, no release, no data constructor); when `::open`
succeeds and `::mmap` fails the result is the empty array and the calls are `::open`,
`::mmap`, `::close`, `mlx_array_new`; when both succeed the result is the value of
`mlx_array_new_data` at `ptr + offset`, it is not the empty array, and `mlx_array_new` is
not called. -/
theorem C7_failure_branches (dtypeSize : mlx_dtype → Nat) (env : Env) (k : Kernel)
    (path : String) (offset : Nat) (shape : Nat → Int) (dim : Int) (dtype : mlx_dtype)
    (device : mlx_device) :
    (env.openRet path OpenFlag.O_RDONLY < 0 →
        (mlx_mmap_tensor dtypeSize env k path offset shape dim dtype device).1
            = (mlx_array_new k).1
          ∧ callsSince k (mlx_mmap_tensor dtypeSize env k path offset shape dim dtype device).2
            = [Call.sysOpen path OpenFlag.O_RDONLY (env.openRet path OpenFlag.O_RDONLY),
               Call.arrayNew])
    ∧ (0 ≤ env.openRet path OpenFlag.O_RDONLY →
        env.mmapRet (addSizeT (byteCount dtypeSize shape dim dtype) offset) Prot.PROT_READ
            MapFlag.MAP_SHARED (env.openRet path OpenFlag.O_RDONLY) 0 = none →
        (mlx_mmap_tensor dtypeSize env k path offset shape dim dtype device).1
            = (mlx_array_new k).1
          ∧ callsSince k (mlx_mmap_tensor dtypeSize env k path offset shape dim dtype device).2
            = [Call.sysOpen path OpenFlag.O_RDONLY (env.openRet path OpenFlag.O_RDONLY),
               Call.sysMmap (addSizeT (byteCount dtypeSize shape dim dtype) offset)
                 Prot.PROT_READ MapFlag.MAP_SHARED (env.openRet path OpenFlag.O_RDONLY) 0
                 none,
               Call.sysClose (env.openRet path OpenFlag.O_RDONLY),
               Call.arrayNew])
    ∧ (∀ p, 0 ≤ env.openRet path OpenFlag.O_RDONLY →
        env.mmapRet (addSizeT (byteCount dtypeSize shape dim dtype) offset) Prot.PROT_READ
            MapFlag.MAP_SHARED (env.openRet path OpenFlag.O_RDONLY) 0 = some p →
        (∃ kr, kr.maps = ⟨p, addSizeT (byteCount dtypeSize shape dim dtype) offset,
                  env.fileBytes path⟩ :: k.maps
            ∧ (mlx_mmap_tensor dtypeSize env k path offset shape dim dtype device).1
              = (mlx_array_new_data dtypeSize kr (p + offset) shape dim dtype).1)
          ∧ (mlx_mmap_tensor dtypeSize env k path offset shape dim dtype device).1
              ≠ (mlx_array_new k).1
          ∧ (callsSince k
              (mlx_mmap_tensor dtypeSize env k path offset shape dim dtype device).2).countP
                Call.isArrayNew = 0
          ∧ (callsSince k
              (mlx_mmap_tensor dtypeSize env k path offset shape dim dtype device).2).countP
                Call.isArrayNewData = 1) := by
  refine ⟨?_, ?_, ?_⟩
  · intro hfd
    rw [run_open_fail dtypeSize env k path offset shape dim dtype device hfd]
    exact ⟨rfl, callsSince_append k _ _ _ _⟩
  · intro hfd hmap
    rw [run_mmap_fail dtypeSize env k path offset shape dim dtype device hfd hmap]
    exact ⟨rfl, callsSince_append k _ _ _ _⟩
  · intro p hfd hmap
    rw [run_ok dtypeSize env k path offset shape dim dtype device p hfd hmap]
    refine ⟨⟨⟨k.fds, ⟨p, addSizeT (byteCount dtypeSize shape dim dtype) offset,
      env.fileBytes path⟩ :: k.maps, [], k.pageSize⟩, rfl, rfl⟩, ?_, ?_, ?_⟩
    · simp [mlx_array_new]
    · simp only [callsSince_append]
      simp [List.countP_cons, Call.isArrayNew]
    · simp only [callsSince_append]
      simp [List.countP_cons, Call.isArrayNewData]

/-- C7 at concrete inputs: with no openable file the result is the empty array after
`::open` and `mlx_array_new` only; with a failing `::mmap` it is the empty array too. -/
theorem C7_failure_branches_witness :
    ((mlx_mmap_tensor size4 envNoFile kernel0 "missing.bin" 0 (shapeOf [4]) 1 10 0).1
        = (mlx_array_new kernel0).1
      ∧ callsSince kernel0
          (mlx_mmap_tensor size4 envNoFile kernel0 "missing.bin" 0 (shapeOf [4]) 1 10 0).2
        = [Call.sysOpen "missing.bin" OpenFlag.O_RDONLY (-1), Call.arrayNew])
    ∧ (mlx_mmap_tensor size4 envNoMap kernel0 "weights.bin" 0 (shapeOf [4]) 1 10 0).1
        = (mlx_array_new kernel0).1 :=
  ⟨(C7_failure_branches size4 envNoFile kernel0 "missing.bin" 0 (shapeOf [4]) 1 10 0).1
      (by decide),
   ((C7_failure_branches size4 envNoMap kernel0 "weights.bin" 0 (shapeOf [4]) 1 10 0).2.1
      (by decide) rfl).1⟩

/-- C5: in every run of `mlx_mmap_tensor` the number of `::munmap` calls equals the
number of successful `::mmap` calls, which is 0 or 1; a successful `::mmap` is followed by
the data constructor and then, as the last call before the return, by the `::munmap` of
the same pointer and the same length; the region state machine goes from `Unmapped` back
to `Unmapped` without a disallowed step, and the live mappings at return are those
before the call. -/
theorem C5_mapping_released_once (dtypeSize : mlx_dtype → Nat) (env : Env) (k : Kernel)
    (path : String) (offset : Nat) (shape : Nat → Int) (dim : Int) (dtype : mlx_dtype)
    (device : mlx_device) :
    (callsSince k
        (mlx_mmap_tensor dtypeSize env k path offset shape dim dtype device).2).countP
          Call.isMunmap
      = (callsSince k
          (mlx_mmap_tensor dtypeSize env k path offset shape dim dtype device).2).countP
            Call.isMmapOk
    ∧ (callsSince k
        (mlx_mmap_tensor dtypeSize env k path offset shape dim dtype device).2).countP
          Call.isMmapOk ≤ 1
    ∧ (∀ len prot fl fd off p,
        Call.sysMmap len prot fl fd off (some p)
            ∈ callsSince k
                (mlx_mmap_tensor dtypeSize env k path offset shape dim dtype device).2 →
          ∃ pre d sh dm dt,
            callsSince k (mlx_mmap_tensor dtypeSize env k path offset shape dim dtype device).2
                = pre ++ [Call.arrayNewData d sh dm dt, Call.sysMunmap p len]
              ∧ Call.sysMmap len prot fl fd off (some p) ∈ pre)
    ∧ MapState.run MapState.Unmapped
        (callsSince k (mlx_mmap_tensor dtypeSize env k path offset shape dim dtype device).2)
        = some MapState.Unmapped
    ∧ (mlx_mmap_tensor dtypeSize env k path offset shape dim dtype device).2.maps
        = k.maps := by
  rcases run_cases dtypeSize env k path offset shape dim dtype device with
    ⟨_, h⟩ | ⟨_, _, h⟩ | ⟨p, _, _, h⟩
  · rw [h]
    simp only [callsSince_append]
    refine ⟨by simp [List.countP_cons, Call.isMunmap, Call.isMmapOk],
      by simp [List.countP_cons, Call.isMmapOk], ?_, ?_, trivial⟩
    · intro len prot fl fd off p hmem
      simp at hmem
    · simp [MapState.run, MapState.step]
  · rw [h]
    simp only [callsSince_append]
    refine ⟨by simp [List.countP_cons, Call.isMunmap, Call.isMmapOk],
      by simp [List.countP_cons, Call.isMmapOk], ?_, ?_, trivial⟩
    · intro len prot fl fd off p hmem
      simp at hmem
    · simp [MapState.run, MapState.step]
  · rw [h]
    simp only [callsSince_append]
    refine ⟨by simp [List.countP_cons, Call.isMunmap, Call.isMmapOk],
      by simp [List.countP_cons, Call.isMmapOk], ?_, ?_, trivial⟩
    · intro len prot fl fd off q hmem
      simp at hmem
      obtain ⟨h1, h2, h3, h4, h5, h6⟩ := hmem
      subst h1 h2 h3 h4 h5 h6
      exact ⟨[Call.sysOpen path OpenFlag.O_RDONLY (env.openRet path OpenFlag.O_RDONLY),
          Call.sysMmap (addSizeT (byteCount dtypeSize shape dim dtype) offset)
            Prot.PROT_READ MapFlag.MAP_SHARED (env.openRet path OpenFlag.O_RDONLY) 0
            (some q),
          Call.sysClose (env.openRet path OpenFlag.O_RDONLY)],
        _, _, _, _, rfl, by simp⟩
    · simp [MapState.run, MapState.step]

/-- C6: for every outcome of `::open` and `::mmap` the open descriptors after
`mlx_mmap_tensor` returns are those before the call; when `::open` succeeds the
descriptor it returned is closed exactly once and no other descriptor is closed, and
when `::open` fails no `::close` is issued. -/
theorem C6_descriptor_closed_once (dtypeSize : mlx_dtype → Nat) (env : Env) (k : Kernel)
    (path : String) (offset : Nat) (shape : Nat → Int) (dim : Int) (dtype : mlx_dtype)
    (device : mlx_device) :
    (mlx_mmap_tensor dtypeSize env k path offset shape dim dtype device).2.fds = k.fds
    ∧ (0 ≤ env.openRet path OpenFlag.O_RDONLY →
        (callsSince k
          (mlx_mmap_tensor dtypeSize env k path offset shape dim dtype device).2).count
            (Call.sysClose (env.openRet path OpenFlag.O_RDONLY)) = 1
        ∧ (callsSince k
          (mlx_mmap_tensor dtypeSize env k path offset shape dim dtype device).2).countP
            Call.isClose = 1)
    ∧ (env.openRet path OpenFlag.O_RDONLY < 0 →
        (callsSince k
          (mlx_mmap_tensor dtypeSize env k path offset shape dim dtype device).2).countP
            Call.isClose = 0)
    ∧ (callsSince k
        (mlx_mmap_tensor dtypeSize env k path offset shape dim dtype device).2).countP
          Call.isClose
      = (callsSince k
          (mlx_mmap_tensor dtypeSize env k path offset shape dim dtype device).2).countP
            Call.isOpenOk := by
  rcases run_cases dtypeSize env k path offset shape dim dtype device with
    ⟨hfd, h⟩ | ⟨hfd, _, h⟩ | ⟨p, hfd, _, h⟩
  · rw [h]
    simp only [callsSince_append]
    refine ⟨trivial, fun h0 => absurd hfd (not_lt.mpr h0), ?_, ?_⟩
    · intro _; simp [List.countP_cons, Call.isClose]
    · simp [List.countP_cons, Call.isClose, Call.isOpenOk, hfd]
  · rw [h]
    simp only [callsSince_append]
    refine ⟨trivial, ?_, fun h0 => absurd h0 (not_lt.mpr hfd), ?_⟩
    · intro _
      exact ⟨by simp [List.count_cons], by simp [List.countP_cons, Call.isClose]⟩
    · simp [List.countP_cons, Call.isClose, Call.isOpenOk, hfd]
  · rw [h]
    simp only [callsSince_append]
    refine ⟨trivial, ?_, fun h0 => absurd h0 (not_lt.mpr hfd), ?_⟩
    · intro _
      exact ⟨by simp [List.count_cons], by simp [List.countP_cons, Call.isClose]⟩
    · simp [List.countP_cons, Call.isClose, Call.isOpenOk, hfd]

/-- C6 at concrete inputs, from a process holding descriptors 0, 1, 2: after a
successful call, after a call whose `::mmap` fails and after a call whose `::open` fails
the open descriptors are again 0, 1, 2. -/
theorem C6_descriptor_closed_once_witness :
    (mlx_mmap_tensor size4 env16 kernelStd "weights.bin" 0 (shapeOf [4]) 1 10 0).2.fds
        = [(0, []), (1, []), (2, [])]
    ∧ (mlx_mmap_tensor size4 envNoMap kernelStd "weights.bin" 0 (shapeOf [4]) 1 10 0).2.fds
        = [(0, []), (1, []), (2, [])]
    ∧ (callsSince kernelStd
        (mlx_mmap_tensor size4 envNoFile kernelStd "missing.bin" 0 (shapeOf [4]) 1 10 0).2).countP
          Call.isClose = 0 :=
  ⟨(C6_descriptor_closed_once size4 env16 kernelStd "weights.bin" 0 (shapeOf [4]) 1 10 0).1,
   (C6_descriptor_closed_once size4 envNoMap kernelStd "weights.bin" 0 (shapeOf [4]) 1 10 0).1,
   (C6_descriptor_closed_once size4 envNoFile kernelStd "missing.bin" 0 (shapeOf [4]) 1 10
      0).2.2.1 (by decide)⟩

/-- C9: whenever `::open` succeeds, the first three calls of `mlx_mmap_tensor` are the
`::open` of the path read-only, one `::mmap` of length `bytes + offset` (a `size_t` sum,
equal to `offset + bytes` whenever that fits in `size_t`) with protection read-only,
sharing mode shared, the descriptor just opened and file offset 0, and the `::close` of
that descriptor; no other `::mmap` is made, and the data constructor, the only reader
of the mapping, is not among these three calls. -/
theorem C9_open_map_close (dtypeSize : mlx_dtype → Nat) (env : Env) (k : Kernel)
    (path : String) (offset : Nat) (shape : Nat → Int) (dim : Int) (dtype : mlx_dtype)
    (device : mlx_device) (hfd : 0 ≤ env.openRet path OpenFlag.O_RDONLY) :
    (∃ ret rest,
        callsSince k (mlx_mmap_tensor dtypeSize env k path offset shape dim dtype device).2
          = [Call.sysOpen path OpenFlag.O_RDONLY (env.openRet path OpenFlag.O_RDONLY),
             Call.sysMmap (addSizeT (byteCount dtypeSize shape dim dtype) offset)
               Prot.PROT_READ MapFlag.MAP_SHARED (env.openRet path OpenFlag.O_RDONLY) 0 ret,
             Call.sysClose (env.openRet path OpenFlag.O_RDONLY)] ++ rest
        ∧ rest.countP Call.isMmap = 0)
    ∧ (callsSince k
        (mlx_mmap_tensor dtypeSize env k path offset shape dim dtype device).2).countP
          Call.isMmap = 1
    ∧ ((callsSince k
        (mlx_mmap_tensor dtypeSize env k path offset shape dim dtype device).2).take 3).countP
          Call.isArrayNewData = 0
    ∧ addSizeT (byteCount dtypeSize shape dim dtype) offset
        = (offset + byteCount dtypeSize shape dim dtype) % 2 ^ 64
    ∧ (offset + byteCount dtypeSize shape dim dtype < 2 ^ 64 →
        addSizeT (byteCount dtypeSize shape dim dtype) offset
          = offset + byteCount dtypeSize shape dim dtype) := by
  have hadd : addSizeT (byteCount dtypeSize shape dim dtype) offset
      = (offset + byteCount dtypeSize shape dim dtype) % 2 ^ 64 := by
    simp [addSizeT, SIZE_MOD, Nat.add_comm]
  have hadd2 : offset + byteCount dtypeSize shape dim dtype < 2 ^ 64 →
      addSizeT (byteCount dtypeSize shape dim dtype) offset
        = offset + byteCount dtypeSize shape dim dtype := by
    intro hlt
    rw [hadd, Nat.mod_eq_of_lt hlt]
  rcases run_cases dtypeSize env k path offset shape dim dtype device with
    ⟨hneg, _⟩ | ⟨_, _, h⟩ | ⟨p, _, _, h⟩
  · exact absurd hneg (not_lt.mpr hfd)
  · rw [h]
    simp only [callsSince_append]
    refine ⟨⟨none, [Call.arrayNew], rfl, by simp [List.countP_cons, Call.isMmap]⟩,
      by simp [List.countP_cons, Call.isMmap],
      by simp [List.countP_cons, Call.isArrayNewData], hadd, hadd2⟩
  · rw [h]
    simp only [callsSince_append]
    refine ⟨⟨some p, _, rfl, by simp [List.countP_cons, Call.isMmap]⟩,
      by simp [List.countP_cons, Call.isMmap],
      by simp [List.countP_cons, Call.isArrayNewData], hadd, hadd2⟩

/-- C9 at the concrete scenario: 16-byte file, offset 8, shape `[2]`, float32: the calls
are `::open` read-only, `::mmap` of 16 bytes read-only shared at file offset 0, `::close`,
then the data constructor at `ptr + 8` and the `::munmap`. -/
theorem C9_open_map_close_witness :
    callsSince kernel0
        (mlx_mmap_tensor size4 env16 kernel0 "weights.bin" 8 (shapeOf [2]) 1 10 0).2
      = [Call.sysOpen "weights.bin" OpenFlag.O_RDONLY 3,
         Call.sysMmap 16 Prot.PROT_READ MapFlag.MAP_SHARED 3 0 (some 4096),
         Call.sysClose 3,
         Call.arrayNewData 4104 [2] 1 10,
         Call.sysMunmap 4096 16]
    ∧ (callsSince kernel0
        (mlx_mmap_tensor size4 env16 kernel0 "weights.bin" 8 (shapeOf [2]) 1 10 0).2).countP
          Call.isMmap = 1 :=
  ⟨by decide,
   (C9_open_map_close size4 env16 kernel0 "weights.bin" 8 (shapeOf [2]) 1 10 0
      (by decide)).2.1⟩

/-- C3, as stated, fails: the 16-byte file is readable, the request (offset 0, shape
`[8]`, float32) asks for 32 bytes, `::mmap` of 32 bytes succeeds, and `mlx_mmap_tensor`
does not fail: the array it returns was copied from 32 positions of the mapping, the 16
bytes of the file followed by 16 positions past the end of the file, which hold the
zero fill of the last page of the file. -/
theorem C3_counterexample :
    (env16.fileBytes "weights.bin").length = 16
    ∧ 0 ≤ env16.openRet "weights.bin" OpenFlag.O_RDONLY
    ∧ 0 + byteCount size4 (shapeOf [8]) 1 10 = 32
    ∧ (mlx_mmap_tensor size4 env16 kernel0 "weights.bin" 0 (shapeOf [8]) 1 10 0).1
        ≠ (mlx_array_new kernel0).1
    ∧ (mlx_mmap_tensor size4 env16 kernel0 "weights.bin" 0 (shapeOf [8]) 1 10 0).1
        = mlx_array.data (file16.map some ++ List.replicate 16 (some 0)) [8] 10
    ∧ callsSince kernel0
        (mlx_mmap_tensor size4 env16 kernel0 "weights.bin" 0 (shapeOf [8]) 1 10 0).2
        = [Call.sysOpen "weights.bin" OpenFlag.O_RDONLY 3,
           Call.sysMmap 32 Prot.PROT_READ MapFlag.MAP_SHARED 3 0 (some 4096),
           Call.sysClose 3,
           Call.arrayNewData 4096 [8] 1 10,
           Call.sysMunmap 4096 32] := by
  decide

/-- C3, amended: for a readable file of size `F` and a request with
`byteOffset + totalBytes > F`, `mlx_mmap_tensor` makes no comparison with `F`: the
result is the failure result exactly when `::mmap` fails, and then the data constructor
is not called (no byte is read); when `::mmap` succeeds the failure branch is not taken:
`mlx_array_new` is not called and the data constructor is called at
`ptr + byteOffset`. -/
theorem C3_fails_only_when_mmap_fails (dtypeSize : mlx_dtype → Nat) (env : Env) (k : Kernel)
    (path : String) (offset : Nat) (shape : Nat → Int) (dim : Int) (dtype : mlx_dtype)
    (device : mlx_device) (hfd : 0 ≤ env.openRet path OpenFlag.O_RDONLY)
    (_hbeyond : (env.fileBytes path).length < offset + byteCount dtypeSize shape dim dtype) :
    ((mlx_mmap_tensor dtypeSize env k path offset shape dim dtype device).1
          = (mlx_array_new k).1
        ↔ env.mmapRet (addSizeT (byteCount dtypeSize shape dim dtype) offset) Prot.PROT_READ
            MapFlag.MAP_SHARED (env.openRet path OpenFlag.O_RDONLY) 0 = none)
    ∧ (env.mmapRet (addSizeT (byteCount dtypeSize shape dim dtype) offset) Prot.PROT_READ
          MapFlag.MAP_SHARED (env.openRet path OpenFlag.O_RDONLY) 0 = none →
        (callsSince k
          (mlx_mmap_tensor dtypeSize env k path offset shape dim dtype device).2).countP
            Call.isArrayNewData = 0)
    ∧ (∀ p, env.mmapRet (addSizeT (byteCount dtypeSize shape dim dtype) offset)
          Prot.PROT_READ MapFlag.MAP_SHARED (env.openRet path OpenFlag.O_RDONLY) 0 = some p →
        (callsSince k
          (mlx_mmap_tensor dtypeSize env k path offset shape dim dtype device).2).countP
            Call.isArrayNew = 0
          ∧ Call.arrayNewData (p + offset) (shapeList shape dim.toNat) dim dtype
              ∈ callsSince k
                  (mlx_mmap_tensor dtypeSize env k path offset shape dim dtype device).2) := by
  rcases run_cases dtypeSize env k path offset shape dim dtype device with
    ⟨hneg, _⟩ | ⟨_, hmap, h⟩ | ⟨p, _, hmap, h⟩
  · exact absurd hneg (not_lt.mpr hfd)
  · rw [h, hmap]
    simp only [callsSince_append]
    refine ⟨by simp [mlx_array_new], ?_, ?_⟩
    · intro _; simp [List.countP_cons, Call.isArrayNewData]
    · intro q hq; simp at hq
  · rw [h, hmap]
    simp only [callsSince_append]
    refine ⟨by simp [mlx_array_new], ?_, ?_⟩
    · intro hq; simp at hq
    · intro q hq
      have hpq : p = q := by simpa using hq
      subst hpq
      exact ⟨by simp [List.countP_cons, Call.isArrayNew], by simp⟩

/-- C3, amended, at concrete inputs: on the 16-byte file a request for 32 bytes gives
the failure result when `::mmap` fails, and does not give it when `::mmap` succeeds. -/
theorem C3_fails_only_when_mmap_fails_witness :
    (mlx_mmap_tensor size4 envNoMap kernel0 "weights.bin" 0 (shapeOf [8]) 1 10 0).1
        = (mlx_array_new kernel0).1
    ∧ ¬ (mlx_mmap_tensor size4 env16 kernel0 "weights.bin" 0 (shapeOf [8]) 1 10 0).1
        = (mlx_array_new kernel0).1 :=
  ⟨(C3_fails_only_when_mmap_fails size4 envNoMap kernel0 "weights.bin" 0 (shapeOf [8]) 1 10 0
      (by decide) (by decide)).1.mpr rfl,
   fun hempty =>
    absurd
      ((C3_fails_only_when_mmap_fails size4 env16 kernel0 "weights.bin" 0 (shapeOf [8]) 1 10 0
        (by decide) (by decide)).1.mp hempty)
      (by decide)⟩

/-- C4, as stated, fails: for float32 (4 bytes) and the shape of positive 32-bit
dimensions `[2147418113, 429509837, 5]` the exact byte count is `2 ^ 64 + 4`, above the
maximum of `size_t`; the computed byte count is the wrapped value 4, and the call goes
on: it maps 4 bytes, calls the data constructor and does not return the failure
result. -/
theorem C4_counterexample :
    specTotalBytes size4 shapeBig 3 10 = 2 ^ 64 + 4
    ∧ (∀ i, i < 3 → 0 < shapeBig i ∧ shapeBig i < 2 ^ 31)
    ∧ byteCount size4 shapeBig 3 10 = 4
    ∧ callsSince kernel0 (mlx_mmap_tensor size4 env16 kernel0 "weights.bin" 0 shapeBig 3 10 0).2
        = [Call.sysOpen "weights.bin" OpenFlag.O_RDONLY 3,
           Call.sysMmap 4 Prot.PROT_READ MapFlag.MAP_SHARED 3 0 (some 4096),
           Call.sysClose 3,
           Call.arrayNewData 4096 [2147418113, 429509837, 5] 3 10,
           Call.sysMunmap 4096 4]
    ∧ (mlx_mmap_tensor size4 env16 kernel0 "weights.bin" 0 shapeBig 3 10 0).1
        ≠ (mlx_array_new kernel0).1 := by
  refine ⟨by decide, ?_, by decide, by decide, by decide⟩
  intro i hi
  interval_cases i <;> decide

/-- C4, amended: for every dtype and shape whose exact value `elementSize * Π shape`
exceeds the maximum of `size_t`, the size computation does not detect the overflow: the
byte count is the exact value modulo `2 ^ 64`, and the call goes on with it, returning
the failure result exactly when `::open` or `::mmap` (asked for the wrapped length) fails. -/
theorem C4_overflow_wraps (dtypeSize : mlx_dtype → Nat) (env : Env) (k : Kernel)
    (path : String) (offset : Nat) (shape : Nat → Int) (dim : Int) (dtype : mlx_dtype)
    (device : mlx_device)
    (hover : 2 ^ 64 ≤ dtypeSize dtype * (shapeProduct shape dim.toNat).toNat) :
    byteCount dtypeSize shape dim dtype
        = (dtypeSize dtype * (shapeProduct shape dim.toNat).toNat) % 2 ^ 64
    ∧ ((mlx_mmap_tensor dtypeSize env k path offset shape dim dtype device).1
          = (mlx_array_new k).1
        ↔ (env.openRet path OpenFlag.O_RDONLY < 0
            ∨ env.mmapRet
                (addSizeT ((dtypeSize dtype * (shapeProduct shape dim.toNat).toNat) % 2 ^ 64)
                  offset)
                Prot.PROT_READ MapFlag.MAP_SHARED (env.openRet path OpenFlag.O_RDONLY) 0
              = none))
    ∧ (0 ≤ env.openRet path OpenFlag.O_RDONLY →
        ∃ ret, Call.sysMmap
            (addSizeT ((dtypeSize dtype * (shapeProduct shape dim.toNat).toNat) % 2 ^ 64)
              offset)
            Prot.PROT_READ MapFlag.MAP_SHARED (env.openRet path OpenFlag.O_RDONLY) 0 ret
          ∈ callsSince k
              (mlx_mmap_tensor dtypeSize env k path offset shape dim dtype device).2) := by
  have hP : 0 ≤ shapeProduct shape dim.toNat := by
    by_contra hneg
    have h0 : (shapeProduct shape dim.toNat).toNat = 0 :=
      Int.toNat_eq_zero.mpr (le_of_lt (not_le.mp hneg))
    rw [h0] at hover
    simp at hover
  have hb : byteCount dtypeSize shape dim dtype
      = (dtypeSize dtype * (shapeProduct shape dim.toNat).toNat) % 2 ^ 64 := by
    have hc := byteCount_cast dtypeSize shape dim dtype
    have hs : (((dtypeSize dtype * (shapeProduct shape dim.toNat).toNat : Nat)) : Int)
        = (dtypeSize dtype : Int) * shapeProduct shape dim.toNat := by
      push_cast
      rw [Int.toNat_of_nonneg hP]
    rw [← hs] at hc
    have hM : (SIZE_MOD : Int) = ((2 ^ 64 : Nat) : Int) := by simp [SIZE_MOD]
    rw [hM] at hc
    exact_mod_cast hc
  rw [← hb]
  refine ⟨rfl, ?_, ?_⟩
  · rcases run_cases dtypeSize env k path offset shape dim dtype device with
      ⟨hneg, h⟩ | ⟨hfd, hmap, h⟩ | ⟨p, hfd, hmap, h⟩
    · rw [h]; simp [mlx_array_new, hneg]
    · rw [h]; simp [mlx_array_new, hmap]
    · rw [h]; simp [mlx_array_new, hmap, not_lt.mpr hfd]
  · intro hfd
    rcases run_cases dtypeSize env k path offset shape dim dtype device with
      ⟨hneg, _⟩ | ⟨_, _, h⟩ | ⟨p, _, _, h⟩
    · exact absurd hneg (not_lt.mpr hfd)
    · rw [h]
      simp only [callsSince_append]
      exact ⟨none, by simp⟩
    · rw [h]
      simp only [callsSince_append]
      exact ⟨some p, by simp⟩

/-- C4, amended, at the concrete input: float32 and shape `[2147418113, 429509837, 5]`
give the wrapped byte count `(2 ^ 64 + 4) mod 2 ^ 64 = 4`. -/
theorem C4_overflow_wraps_witness :
    2 ^ 64 ≤ size4 10 * (shapeProduct shapeBig (3 : Int).toNat).toNat
    ∧ byteCount size4 shapeBig 3 10 = 4 :=
  ⟨by decide,
   (C4_overflow_wraps size4 env16 kernel0 "weights.bin" 0 shapeBig 3 10 0 (by decide)).1⟩

end MmapTensor
